import Mathlib

/-!
Shallow embedding of the core of `eggschange_mvp_app.py`: the supplier
matching/ranking function `rank_suppliers_for_rfq` (with its helper
`postcode_matches`) and the landed-cost comparison computation of the
`/rfq/<id>/compare` branch of `App.do_GET`.

Conventions of the embedding:
* Python `str` is Lean `String`; case folding, stripping and splitting are
  modelled by structural recursion over `String.data` (the data this program
  handles is ASCII, where these agree with the Python methods).
* Python `float` values (unit prices, delivery costs, price bands) are
  modelled as exact rationals `ℚ`.
* Nullable SQLite columns are `Option` fields; Python `x or 0` / `x or ""`
  defaults become `Option.getD` (for numbers, a stored `0` is also falsy in
  Python and likewise defaults to `0`, so `getD` agrees on every value).
* Python list indexing, including its negative-index semantics and its
  `IndexError`, is modelled explicitly; a computation that would raise is an
  `Option.none` result.
* `list.sort(key=...)` is a stable sort by the key order; it is modelled by a
  stable insertion sort on the key comparison.
-/

namespace Eggschange

/-- `strStarts hay needle`: Python `hay.startswith(needle)` on char lists. -/
def strStarts : List Char → List Char → Bool
  | _, [] => true
  | [], _ :: _ => false
  | c :: cs, d :: ds => c == d && strStarts cs ds

/-- `strInfix hay needle`: Python `needle in hay` (contiguous substring). -/
def strInfix : List Char → List Char → Bool
  | [], needle => strStarts [] needle
  | c :: cs, needle => strStarts (c :: cs) needle || strInfix cs needle

/-- Python `needle in hay` on strings. -/
def strContains (hay needle : String) : Bool :=
  strInfix hay.data needle.data

/-- Python `str.upper()` (ASCII). -/
def strUp (s : String) : String :=
  (s.data.map Char.toUpper).asString

/-- Python `str.lower()` (ASCII). -/
def strLow (s : String) : String :=
  (s.data.map Char.toLower).asString

/-- Python `str.strip()`: drop whitespace from both ends. -/
def trimChars (cs : List Char) : List Char :=
  (((cs.dropWhile Char.isWhitespace).reverse).dropWhile Char.isWhitespace).reverse

/-- Python `str.title()` restricted to the ASCII letters the data uses: the
first char of each alphabetic run is uppercased, the rest lowercased. -/
def pyTitle (s : String) : String :=
  (s.data.foldl
    (fun (acc : List Char × Bool) c =>
      if c.isAlpha then
        (acc.1 ++ [if acc.2 then c.toLower else c.toUpper], true)
      else
        (acc.1 ++ [c], false))
    ([], false)).1.asString

/-- Python `s.split(",")` on char lists (the source only ever splits on the
one-char separator `","`). -/
def splitComma : List Char → List (List Char)
  | [] => [[]]
  | c :: cs =>
    if c = ',' then [] :: splitComma cs
    else
      match splitComma cs with
      | [] => [[c]]
      | g :: gs => (c :: g) :: gs

/-- Python `s.replace("/", ",")` (single-char pattern and replacement). -/
def replSlash (cs : List Char) : List Char :=
  cs.map (fun c => if c = '/' then ',' else c)

/-- `[x.strip() for x in s.split(",") if x.strip()]` over a char list — the
CSV-field splitting idiom used throughout `rank_suppliers_for_rfq` and
`postcode_matches` (before the per-use `.upper()` / `.lower()` / `.title()`
projection). -/
def csvItemsChars (cs : List Char) : List String :=
  ((splitComma cs).map (fun g => (trimChars g).asString)).filter (fun x => x ≠ "")

/-- `[x.strip() for x in s.split(",") if x.strip()]` on a string. -/
def csvItems (s : String) : List String :=
  csvItemsChars s.data

/-- Python code-point-lexicographic string comparison `a <= b`, structurally
over char lists. -/
def charListLE : List Char → List Char → Bool
  | [], _ => true
  | _ :: _, [] => false
  | a :: as, b :: bs =>
    if a < b then true
    else if b < a then false
    else charListLE as bs

/-- Stable insertion of `x` into `l`: `x` goes after every element `y` with
`le y x`, so elements that compare equal keep their original order. -/
def insertLE {α : Type} (le : α → α → Bool) (x : α) : List α → List α
  | [] => [x]
  | y :: ys => if le y x then y :: insertLE le x ys else x :: y :: ys

/-- Stable sort modelling Python `list.sort` on the key comparison `le`
(insertion sort: sorted output, equal keys in input order). -/
def pySort {α : Type} (le : α → α → Bool) (l : List α) : List α :=
  l.foldl (fun acc x => insertLE le x acc) []

/-- Line item as produced by `parse_line_items_json`: `kind` lowered, `size`
uppercased, `pack` lowered, `qty_week` via `int(... or 0)` (an arbitrary
integer: the JSON is client-supplied), `target_price` stripped free text. -/
structure LineItem where
  kind : String
  size : String
  pack : String
  qty_week : Int
  target_price : String
  deriving DecidableEq, Repr

/-- The `supplier` table columns read by the matcher (`name` is always a
string on every write path; the remaining columns are nullable). -/
structure Supplier where
  name : String
  welfare : Option String
  sizes : Option String
  pack_formats : Option String
  moq_trays : Option Int
  delivery_days : Option String
  delivery_postcodes : Option String
  price_band_low : Option ℚ
  price_band_high : Option ℚ
  deriving DecidableEq, Repr

/-- The `rfq` row fields read by the matcher and the compare branch. -/
structure RFQ where
  postcodes : Option String
  welfare : Option String
  delivery_windows : Option String
  deriving DecidableEq, Repr

/-- A `quote` row joined with its supplier name (`q.*, s.name AS sname`). -/
structure Quote where
  sname : String
  line_item_index : Option Int
  unit_price : Option ℚ
  delivery_cost : Option ℚ
  lead_time_days : Option Int
  hold_weeks : Option Int
  remarks : Option String
  deriving DecidableEq, Repr

/-- Python-style list lookup `l[i]` for a possibly negative `i`: negative
indices count from the end of the list; an index that is out of range on both
sides raises `IndexError`, modelled as `none`. -/
def pyGet (l : List LineItem) (i : Int) : Option LineItem :=
  if 0 ≤ i then l[i.toNat]?
  else if 0 ≤ i + l.length then l[(i + l.length).toNat]?
  else none

/-- Floor of a rational, computed from its normalized fraction. -/
def ratFloor (q : ℚ) : ℤ :=
  Int.fdiv q.num q.den

/-- Round-half-to-even to an integer (the rounding Python `round` uses). -/
def roundHalfEven (q : ℚ) : ℤ :=
  let f := ratFloor q
  let r := q - f
  if r < 1 / 2 then f
  else if 1 / 2 < r then f + 1
  else if f % 2 = 0 then f else f + 1

/-- Python `round(x, 4)` modelled over exact rationals. -/
def round4 (q : ℚ) : ℚ :=
  (roundHalfEven (q * 10000) : ℚ) / 10000

/-- The fallback line item
`{"qty_week": 0, "kind": "", "size": "", "pack": ""}` used by the compare
branch when the quote index is at least the item-list length (the source dict
has no `target_price` key; that field is never read on this path). -/
def fallbackItem : LineItem :=
  { kind := "", size := "", pack := "", qty_week := 0, target_price := "" }

/-- `it = items[idx] if idx < len(items) else {...}` from the compare branch,
with Python indexing semantics for the taken branch. -/
def resolveItem (items : List LineItem) (idx : Int) : Option LineItem :=
  if idx < items.length then pyGet items idx else some fallbackItem

/-- One row of the compare table, as assembled per quote. -/
structure Row where
  supplier : String
  line_item_label : String
  unit_price : ℚ
  delivery_cost : ℚ
  qty_week : Int
  delivery_per_unit : ℚ
  landed_per_unit : ℚ
  lead_time_days : Option Int
  hold_weeks : Option Int
  remarks : Option String
  deriving DecidableEq, Repr

/-- The per-quote body of the compare loop:
`idx = q["line_item_index"] or 0`, resolve the item,
`qty = int(it.get("qty_week") or 0)`,
`del_per = (float(q["delivery_cost"] or 0) / qty) if qty else 0.0`,
`landed = float(q["unit_price"] or 0) + del_per`, then the row dict with
`round(del_per, 4)` and `round(landed, 4)`. `none` models an `IndexError`. -/
def makeRow (items : List LineItem) (q : Quote) : Option Row :=
  match resolveItem items (q.line_item_index.getD 0) with
  | none => none
  | some it =>
    let qty : Int := it.qty_week
    let del_per : ℚ := if qty = 0 then 0 else (q.delivery_cost.getD 0) / (qty : ℚ)
    let landed : ℚ := (q.unit_price.getD 0) + del_per
    some
      { supplier := q.sname
        line_item_label := it.kind ++ " " ++ it.size ++ " " ++ it.pack
        unit_price := q.unit_price.getD 0
        delivery_cost := q.delivery_cost.getD 0
        qty_week := qty
        delivery_per_unit := round4 del_per
        landed_per_unit := round4 landed
        lead_time_days := q.lead_time_days
        hold_weeks := q.hold_weeks
        remarks := q.remarks }

/-- The sort comparison `rows.sort(key=lambda x: x["landed_per_unit"])`. -/
def rowLE (a b : Row) : Bool :=
  decide (a.landed_per_unit ≤ b.landed_per_unit)

/-- Ascending-`landed_per_unit` ordering between two compare rows. -/
def RowLed (a b : Row) : Prop :=
  a.landed_per_unit ≤ b.landed_per_unit

/-- The whole compare-branch computation over an already-fetched snapshot:
one row per quote (in quote order), then a stable sort by `landed_per_unit`.
`none` models the `IndexError` a quote with an index below `-len(items)`
raises, which aborts the request before any row is rendered. -/
def compareRows (items : List LineItem) (quotes : List Quote) : Option (List Row) :=
  match quotes.mapM (makeRow items) with
  | none => none
  | some rows => some (pySort rowLE rows)

/-- `postcode_matches(supplier_prefixes, rfq_postcodes)` from the source:
false on an empty (falsy) raw string, otherwise true iff some parsed supplier
area code, uppercased, starts some uppercased RFQ postcode. -/
def postcode_matches (supplier_prefixes : String) (rfq_postcodes : List String) : Bool :=
  if supplier_prefixes = "" then false
  else
    let prefs := (csvItems supplier_prefixes).map strUp
    rfq_postcodes.any (fun rp => prefs.any (fun sp => strStarts (strUp rp).data sp.data))

/-- `[p.strip().upper() for p in (rfq["postcodes"] or "").split(",") if p.strip()]`. -/
def rfqPostcodes (rfq : RFQ) : List String :=
  (csvItems (rfq.postcodes.getD "")).map strUp

/-- `set(d.strip().title() for d in (rfq["delivery_windows"] or "").replace("/",",").split(",") if d.strip())`. -/
def rfqDays (rfq : RFQ) : Finset String :=
  ((csvItemsChars (replSlash (rfq.delivery_windows.getD "").data)).map pyTitle).toFinset

/-- `(rfq["welfare"] or "").lower().strip() or None`. -/
def wantedWelfare (rfq : RFQ) : Option String :=
  let w := (trimChars (strLow (rfq.welfare.getD "")).data).asString
  if w = "" then none else some w

/-- The parsed supported-size set of a supplier (uppercased CSV). -/
def sizesOf (s : Supplier) : Finset String :=
  ((csvItems (s.sizes.getD "")).map strUp).toFinset

/-- The parsed supported-pack-format set of a supplier (lowercased CSV). -/
def packsOf (s : Supplier) : Finset String :=
  ((csvItems (s.pack_formats.getD "")).map strLow).toFinset

/-- The parsed delivery-day set of a supplier (title-cased CSV). -/
def daysOf (s : Supplier) : Finset String :=
  ((csvItems (s.delivery_days.getD "")).map pyTitle).toFinset

/-- `moq = s["moq_trays"] or 0` (both `NULL` and `0` give `0`). -/
def moqOf (s : Supplier) : Int :=
  s.moq_trays.getD 0

/-- The welfare hard constraint:
`wanted_welfare and wanted_welfare not in (s["welfare"] or "").lower()` skips
the supplier; this is the kept side of that test. -/
def welfarePasses (rfq : RFQ) (s : Supplier) : Bool :=
  match wantedWelfare rfq with
  | none => true
  | some w => strContains (strLow (s.welfare.getD "")) w

/-- The per-item coverage test of the matcher loop: size supported or `MIXED`,
pack supported, and for tray items the MOQ (`moq_trays or 0`) must not exceed
`it["qty_week"] or 0` (which is the identity on integers). -/
def coversItem (s : Supplier) (it : LineItem) : Bool :=
  (decide (strUp it.size ∈ sizesOf s) || strUp it.size == "MIXED")
    && decide (strLow it.pack ∈ packsOf s)
    && !(strLow it.pack == "tray" && moqOf s > it.qty_week)

/-- `can_cover_items`: how many line items the supplier covers. -/
def countCovered (s : Supplier) (items : List LineItem) : Nat :=
  items.countP (fun it => coversItem s it)

/-- `overlap = len(rfq_days & days) if rfq_days else 1`. -/
def overlapOf (rfq : RFQ) (s : Supplier) : Nat :=
  if rfqDays rfq = ∅ then 1 else (rfqDays rfq ∩ daysOf s).card

/-- The decimal value of a digit run, as Python reads it. -/
def digitsToNat (ds : List Char) : Nat :=
  ds.foldl (fun n c => n * 10 + (c.toNat - 48)) 0

/-- The leftmost (greedy) regex match of `(\d+(?:\.\d{1,2})?)` starting at a
digit, valued as Python `float` of the group: the maximal digit run, then `.`
plus at most two further digits when at least one digit follows the dot. -/
def matchNum (cs : List Char) : ℚ :=
  let intPart := cs.takeWhile Char.isDigit
  let rest := cs.dropWhile Char.isDigit
  let frac : List Char :=
    match rest with
    | '.' :: r => (r.takeWhile Char.isDigit).take 2
    | _ => []
  (digitsToNat intPart : ℚ) + (digitsToNat frac : ℚ) / (10 ^ frac.length : ℚ)

/-- Scan for the leftmost position where the regex can match (its first
character class is `\d`, so that is the first digit). -/
def findFirstNum : List Char → Option ℚ
  | [] => none
  | c :: cs => if c.isDigit then some (matchNum (c :: cs)) else findFirstNum cs

/-- `re.search(r"(\d+(?:\.\d{1,2})?)", txt.replace(",",""))` followed by
`float(...)` of the matched group, as an exact rational. -/
def parseTargetPrice (txt : String) : Option ℚ :=
  findFirstNum (txt.data.filter (fun c => c ≠ ','))

/-- The numeric target a single line item contributes: the regex result when
`it["target_price"]` is truthy (non-empty), nothing otherwise. -/
def itemTarget (it : LineItem) : Option ℚ :=
  if it.target_price ≠ "" then parseTargetPrice it.target_price else none

/-- The `t_price` loop: walk the items in order and stop at the first one
whose target-price text yields a regex match. -/
def firstTargetPrice : List LineItem → Option ℚ
  | [] => none
  | it :: rest =>
    match itemTarget it with
    | some v => some v
    | none => firstTargetPrice rest

/-- The price-band bonus: `2` when a target was parsed, both band ends are
non-NULL and `low <= t_price <= high`. -/
def bandBonus (items : List LineItem) (s : Supplier) : Nat :=
  match firstTargetPrice items, s.price_band_low, s.price_band_high with
  | some t, some lo, some hi => if lo ≤ t ∧ t ≤ hi then 2 else 0
  | _, _, _ => 0

/-- The score accumulated for a surviving supplier:
`can_cover_items * 10`, plus `overlap * 2`, plus the band bonus. -/
def supplierScore (rfq : RFQ) (items : List LineItem) (s : Supplier) : Nat :=
  countCovered s items * 10 + overlapOf rfq s * 2 + bandBonus items s

/-- The three `continue` tests of the matcher loop, conjoined: area coverage,
welfare, and at least one covered line item. -/
def passesFilters (rfq : RFQ) (items : List LineItem) (s : Supplier) : Bool :=
  postcode_matches (s.delivery_postcodes.getD "") (rfqPostcodes rfq)
    && welfarePasses rfq s
    && decide (countCovered s items ≠ 0)

/-- An output entry: the supplier row spread into the dict plus its score. -/
structure ScoredSupplier where
  supplier : Supplier
  score : Nat
  deriving DecidableEq, Repr

/-- The comparison realising `key=lambda x: (-x["score"], x["name"])` for the
ascending stable sort: higher score first, ties by ascending name. -/
def scoredLE (a b : ScoredSupplier) : Bool :=
  decide (b.score < a.score)
    || (a.score == b.score && charListLE a.supplier.name.data b.supplier.name.data)

/-- The ordering the ranked output satisfies between an earlier and a later
entry: strictly higher score, or equal score and name less than or equal. -/
def ScoredRel (a b : ScoredSupplier) : Prop :=
  b.score < a.score ∨ (a.score = b.score ∧ a.supplier.name ≤ b.supplier.name)

/-- `rank_suppliers_for_rfq` over an already-fetched supplier snapshot:
filter by the hard constraints, score the survivors, and stable-sort by
`(-score, name)`. -/
def rank_suppliers_for_rfq (rfq : RFQ) (items : List LineItem) (suppliers : List Supplier) :
    List ScoredSupplier :=
  pySort scoredLE (suppliers.filterMap fun s =>
    if passesFilters rfq items s then some ⟨s, supplierScore rfq items s⟩ else none)

/-! ### Generic facts about the stable sort and the string order -/

theorem mem_insertLE {α : Type} (le : α → α → Bool) (x y : α) :
    ∀ l : List α, y ∈ insertLE le x l ↔ y = x ∨ y ∈ l
  | [] => by simp [insertLE]
  | z :: zs => by
    rw [insertLE]
    by_cases h : le z x
    · rw [if_pos h]
      simp only [List.mem_cons, mem_insertLE le x y zs]
      tauto
    · rw [if_neg h]
      simp

theorem pairwise_insertLE {α : Type} (le : α → α → Bool)
    (trans : ∀ a b c, le a b = true → le b c = true → le a c = true)
    (total : ∀ a b, le a b = true ∨ le b a = true) (x : α) :
    ∀ l : List α, l.Pairwise (le · ·) → (insertLE le x l).Pairwise (le · ·)
  | [], _ => by simp [insertLE]
  | z :: zs, h => by
    rcases List.pairwise_cons.mp h with ⟨hz, hzs⟩
    by_cases hle : le z x
    · rw [insertLE, if_pos hle]
      refine List.pairwise_cons.mpr ⟨?_, pairwise_insertLE le trans total x zs hzs⟩
      intro y hy
      rcases (mem_insertLE le x y zs).mp hy with rfl | hy2
      · exact hle
      · exact hz y hy2
    · rw [insertLE, if_neg hle]
      have hxz : le x z = true := by
        rcases total z x with h1 | h1
        · exact absurd h1 hle
        · exact h1
      refine List.pairwise_cons.mpr ⟨?_, h⟩
      intro y hy
      rcases List.mem_cons.mp hy with rfl | hy2
      · exact hxz
      · exact trans x z y hxz (hz y hy2)

theorem pairwise_pySort {α : Type} (le : α → α → Bool)
    (trans : ∀ a b c, le a b = true → le b c = true → le a c = true)
    (total : ∀ a b, le a b = true ∨ le b a = true) (l : List α) :
    (pySort le l).Pairwise (le · ·) := by
  suffices h : ∀ (l acc : List α), acc.Pairwise (le · ·) →
      (l.foldl (fun acc x => insertLE le x acc) acc).Pairwise (le · ·) by
    exact h l [] (by simp)
  intro l
  induction l with
  | nil => intro acc h; simpa using h
  | cons x xs ih =>
    intro acc h
    exact ih _ (pairwise_insertLE le trans total x acc h)

theorem mem_pySort {α : Type} (le : α → α → Bool) (y : α) (l : List α) :
    y ∈ pySort le l ↔ y ∈ l := by
  suffices h : ∀ (l acc : List α),
      (y ∈ l.foldl (fun acc x => insertLE le x acc) acc ↔ y ∈ acc ∨ y ∈ l) by
    simpa using h l []
  intro l
  induction l with
  | nil => intro acc; simp
  | cons x xs ih =>
    intro acc
    rw [List.foldl_cons, ih, mem_insertLE]
    simp only [List.mem_cons]
    tauto

theorem charListLE_iff_not_lex :
    ∀ as bs : List Char, charListLE as bs = true ↔ ¬ List.Lex (· < ·) bs as
  | [], bs => by
    refine iff_of_true rfl ?_
    intro h
    cases h
  | a :: as, [] => by
    refine iff_of_false (by simp [show charListLE (a :: as) [] = false from rfl]) ?_
    exact not_not_intro List.Lex.nil
  | a :: as, b :: bs => by
    show (if a < b then true else if b < a then false else charListLE as bs) = true ↔ _
    by_cases h1 : a < b
    · rw [if_pos h1]
      refine iff_of_true rfl ?_
      intro hlt
      cases hlt with
      | cons h => exact absurd h1 (lt_irrefl _)
      | rel h => exact absurd h1 (lt_asymm h)
    · rw [if_neg h1]
      by_cases h2 : b < a
      · rw [if_pos h2]
        refine iff_of_false (by simp) ?_
        exact not_not_intro (List.Lex.rel h2)
      · rw [if_neg h2]
        have hab : a = b := le_antisymm (not_lt.mp h2) (not_lt.mp h1)
        subst hab
        rw [charListLE_iff_not_lex as bs]
        constructor
        · intro h hlt
          cases hlt with
          | cons h3 => exact h h3
          | rel h3 => exact absurd h3 (lt_irrefl _)
        · intro h hlt
          exact h (List.Lex.cons hlt)

theorem charListLE_iff_le (a b : String) : charListLE a.data b.data = true ↔ a ≤ b := by
  constructor
  · intro h
    by_contra hnle
    have hlt : b < a := not_le.mp hnle
    rw [String.lt_iff_toList_lt] at hlt
    exact (charListLE_iff_not_lex a.data b.data).mp h hlt
  · intro h
    refine (charListLE_iff_not_lex a.data b.data).mpr ?_
    intro hlex
    have hlt : b < a := String.lt_iff_toList_lt.mpr hlex
    exact absurd h (not_le.mpr hlt)

theorem scoredLE_trans (a b c : ScoredSupplier) :
    scoredLE a b = true → scoredLE b c = true → scoredLE a c = true := by
  simp only [scoredLE, Bool.or_eq_true, Bool.and_eq_true, decide_eq_true_eq, beq_iff_eq,
    charListLE_iff_le]
  rintro (h1 | ⟨h1, h1n⟩) (h2 | ⟨h2, h2n⟩)
  · exact Or.inl (h2.trans h1)
  · exact Or.inl (h2 ▸ h1)
  · exact Or.inl (lt_of_lt_of_le h2 (le_of_eq h1.symm))
  · exact Or.inr ⟨h1.trans h2, le_trans h1n h2n⟩

theorem scoredLE_total (a b : ScoredSupplier) :
    scoredLE a b = true ∨ scoredLE b a = true := by
  simp only [scoredLE, Bool.or_eq_true, Bool.and_eq_true, decide_eq_true_eq, beq_iff_eq,
    charListLE_iff_le]
  rcases Nat.lt_trichotomy a.score b.score with h | h | h
  · exact Or.inr (Or.inl h)
  · rcases le_total a.supplier.name b.supplier.name with hn | hn
    · exact Or.inl (Or.inr ⟨h, hn⟩)
    · exact Or.inr (Or.inr ⟨h.symm, hn⟩)
  · exact Or.inl (Or.inl h)

theorem rowLE_trans (a b c : Row) :
    rowLE a b = true → rowLE b c = true → rowLE a c = true := by
  simp only [rowLE, decide_eq_true_eq]
  exact le_trans

theorem rowLE_total (a b : Row) : rowLE a b = true ∨ rowLE b a = true := by
  simp only [rowLE, decide_eq_true_eq]
  exact le_total _ _

/-! ### Characterisation of the matcher output -/

theorem mem_rank_iff (rfq : RFQ) (items : List LineItem) (suppliers : List Supplier)
    (e : ScoredSupplier) :
    e ∈ rank_suppliers_for_rfq rfq items suppliers ↔
      ∃ s ∈ suppliers, passesFilters rfq items s = true ∧
        e = ⟨s, supplierScore rfq items s⟩ := by
  unfold rank_suppliers_for_rfq
  rw [mem_pySort, List.mem_filterMap]
  constructor
  · rintro ⟨s, hs, hsome⟩
    by_cases hp : passesFilters rfq items s
    · rw [if_pos hp] at hsome
      exact ⟨s, hs, hp, (Option.some_inj.mp hsome).symm⟩
    · rw [if_neg hp] at hsome
      exact absurd hsome (Option.noConfusion)
  · rintro ⟨s, hs, hp, rfl⟩
    exact ⟨s, hs, by rw [if_pos hp]⟩

theorem not_mem_rank_of_fails (rfq : RFQ) (items : List LineItem) (suppliers : List Supplier)
    (s : Supplier) (h : passesFilters rfq items s = false) :
    ∀ e ∈ rank_suppliers_for_rfq rfq items suppliers, e.supplier ≠ s := by
  intro e he heq
  rcases (mem_rank_iff rfq items suppliers e).mp he with ⟨t, _, hp, rfl⟩
  rw [show t = s from heq] at hp
  rw [h] at hp
  exact Bool.noConfusion hp

/-! ### Propositional views of the matcher tests -/

theorem coversItem_iff (s : Supplier) (it : LineItem) :
    coversItem s it = true ↔
      ((strUp it.size ∈ sizesOf s ∨ strUp it.size = "MIXED")
        ∧ strLow it.pack ∈ packsOf s
        ∧ (strLow it.pack = "tray" → moqOf s ≤ it.qty_week)) := by
  unfold coversItem
  simp [Bool.and_eq_true, Bool.or_eq_true, decide_eq_true_eq, beq_iff_eq, not_and]
  tauto

/-- The price-band bonus in the wording of the spec, for comparison with the
source-derived `bandBonus`: exactly `2` iff the first line item with a
parseable target price yields `t`, the supplier declares both band ends, and
`lo ≤ t ≤ hi` (inclusive); line items after the first parseable target play
no part. -/
def specBandBonus (items : List LineItem) (s : Supplier) : Nat :=
  match (items.filterMap itemTarget).head?, s.price_band_low, s.price_band_high with
  | some t, some lo, some hi => if lo ≤ t ∧ t ≤ hi then 2 else 0
  | _, _, _ => 0

theorem firstTargetPrice_eq_head :
    ∀ items : List LineItem, firstTargetPrice items = (items.filterMap itemTarget).head?
  | [] => rfl
  | it :: rest => by
    cases h : itemTarget it with
    | none => simp only [firstTargetPrice, h, List.filterMap_cons, firstTargetPrice_eq_head rest]
    | some v => simp only [firstTargetPrice, h, List.filterMap_cons, List.head?_cons]

theorem bandBonus_eq_spec (items : List LineItem) (s : Supplier) :
    bandBonus items s = specBandBonus items s := by
  unfold bandBonus specBandBonus
  rw [firstTargetPrice_eq_head]

/-! ### Evaluation helpers for the rounding model -/

theorem roundHalfEven_intCast (n : ℤ) : roundHalfEven (n : ℚ) = n := by
  unfold roundHalfEven ratFloor
  rw [Rat.num_intCast, Rat.den_intCast, Nat.cast_one, Int.fdiv_one]
  norm_num

theorem round4_int (q : ℚ) (n : ℤ) (h : q * 10000 = (n : ℚ)) : round4 q = (n : ℚ) / 10000 := by
  unfold round4
  rw [h, roundHalfEven_intCast]

/-! ### The claims -/

/-- C1: for every quote, with `qty` the weekly quantity of the resolved line
item (non-negative, per the data model), the produced row carries
`deliveryPerUnit = deliveryCost / qty` when `qty > 0` and `0` otherwise, and
`landedPerUnit = unitPrice + deliveryPerUnit`, both rounded to 4 decimal
places. -/
theorem normalizer_landed_cost (items : List LineItem) (q : Quote) (it : LineItem)
    (hres : resolveItem items (q.line_item_index.getD 0) = some it)
    (hq : 0 ≤ it.qty_week) :
    (makeRow items q).map Row.delivery_per_unit
      = some (round4 (if 0 < it.qty_week then (q.delivery_cost.getD 0) / (it.qty_week : ℚ) else 0))
    ∧ (makeRow items q).map Row.landed_per_unit
      = some (round4 ((q.unit_price.getD 0)
          + (if 0 < it.qty_week then (q.delivery_cost.getD 0) / (it.qty_week : ℚ) else 0))) := by
  unfold makeRow
  rw [hres]
  by_cases h0 : it.qty_week = 0
  · simp [h0]
  · have hpos : 0 < it.qty_week := lt_of_le_of_ne hq (Ne.symm h0)
    simp [h0, hpos]

def itP6 : LineItem := ⟨"wholesale", "L", "tray", 40, ""⟩
def itemsP6 : List LineItem := [itP6]
def qP6 : Quote :=
  { sname := "Orchard Eggs", line_item_index := some 0, unit_price := some (5 / 2),
    delivery_cost := some 20, lead_time_days := none, hold_weeks := none, remarks := none }

/-- Witness for C1 at the P6 instance: unit price 2.50, delivery 20.00,
quantity 40 give deliveryPerUnit 0.5000 and landedPerUnit 3.0000. -/
theorem normalizer_landed_cost_witness :
    (makeRow itemsP6 qP6).map Row.delivery_per_unit = some (1 / 2)
    ∧ (makeRow itemsP6 qP6).map Row.landed_per_unit = some 3 := by
  obtain ⟨h1, h2⟩ := normalizer_landed_cost itemsP6 qP6 itP6 (by decide) (by decide)
  have hd : (if (0 : Int) < itP6.qty_week
      then (qP6.delivery_cost.getD 0) / (itP6.qty_week : ℚ) else 0) = 1 / 2 := by
    rw [if_pos (by decide)]
    show (20 : ℚ) / ((40 : Int) : ℚ) = 1 / 2
    norm_num
  constructor
  · rw [h1, hd, round4_int _ 5000 (by norm_num)]
    norm_num
  · rw [h2, hd, show qP6.unit_price.getD 0 = 5 / 2 from rfl,
      round4_int _ 30000 (by norm_num)]
    norm_num

/-- C2: a supplier covers a line item iff its (uppercased) size is supported
or is the wildcard `MIXED`, its pack format is supported, and, when the pack
is `tray`, any declared minimum-order-quantity does not exceed the weekly
quantity (non-negative, per the data model); and a supplier covering zero
line items never appears in the matcher output. -/
theorem matcher_item_coverage (s : Supplier) (it : LineItem) (hq : 0 ≤ it.qty_week) :
    (coversItem s it = true ↔
      ((strUp it.size ∈ sizesOf s ∨ strUp it.size = "MIXED")
        ∧ strLow it.pack ∈ packsOf s
        ∧ (strLow it.pack = "tray" →
            (s.moq_trays.all fun m => decide (m ≤ it.qty_week)) = true)))
    ∧ ∀ (rfq : RFQ) (items : List LineItem) (suppliers : List Supplier),
        countCovered s items = 0 →
        ∀ e ∈ rank_suppliers_for_rfq rfq items suppliers, e.supplier ≠ s := by
  constructor
  · rw [coversItem_iff]
    refine and_congr_right fun _ => and_congr_right fun _ => imp_congr_right fun _ => ?_
    cases hm : s.moq_trays with
    | none =>
      simp only [moqOf, hm, Option.getD_none, Option.all_none]
      exact iff_of_true hq trivial
    | some m =>
      simp only [moqOf, hm, Option.getD_some, Option.all_some]
      rw [decide_eq_true_eq]
  · intro rfq items suppliers h0
    apply not_mem_rank_of_fails
    unfold passesFilters
    rw [h0]
    simp

def sMOQ : Supplier :=
  { name := "Tray Farm", welfare := none, sizes := some "L", pack_formats := some "tray",
    moq_trays := some 40, delivery_days := none, delivery_postcodes := some "BN",
    price_band_low := none, price_band_high := none }
def itTray30 : LineItem := ⟨"wholesale", "L", "tray", 30, ""⟩
def itTray40 : LineItem := ⟨"wholesale", "L", "tray", 40, ""⟩

/-- Witness for C2 at the P3 instance: `moq_trays = 40` blocks coverage of a
30-per-week tray item and admits a 40-per-week one. -/
theorem matcher_item_coverage_witness :
    coversItem sMOQ itTray30 = false ∧ coversItem sMOQ itTray40 = true := by
  constructor
  · cases hc : coversItem sMOQ itTray30 with
    | false => rfl
    | true =>
      have h := (matcher_item_coverage sMOQ itTray30 (by decide)).1.mp hc
      exact absurd h (by decide)
  · exact (matcher_item_coverage sMOQ itTray40 (by decide)).1.mpr (by decide)

/-- C3: every matcher output entry scores 10 times its covered-item count,
plus 2 times the day overlap (with baseline overlap 1 when the RFQ names no
required days), plus the price-band bonus of exactly 2 decided by the first
line item with a parseable target price (later ones ignored), the declared
band ends, and inclusive band membership. -/
theorem matcher_score_formula (rfq : RFQ) (items : List LineItem) (suppliers : List Supplier) :
    ∀ e ∈ rank_suppliers_for_rfq rfq items suppliers,
      e.score = 10 * countCovered e.supplier items
        + 2 * (if rfqDays rfq = ∅ then 1 else (rfqDays rfq ∩ daysOf e.supplier).card)
        + specBandBonus items e.supplier := by
  intro e he
  rcases (mem_rank_iff rfq items suppliers e).mp he with ⟨s, _, _, rfl⟩
  show supplierScore rfq items s = _
  unfold supplierScore overlapOf
  rw [bandBonus_eq_spec]
  ring

def rfqC3 : RFQ := { postcodes := some "BN1", welfare := none, delivery_windows := some "Tue" }
def itemsC3 : List LineItem := [⟨"retail", "L", "box", 10, ""⟩]
def sC3 : Supplier :=
  { name := "C Farm", welfare := none, sizes := some "L", pack_formats := some "box",
    moq_trays := none, delivery_days := some "Mon,Tue", delivery_postcodes := some "BN",
    price_band_low := none, price_band_high := none }

/-- Witness for C3: a concrete surviving supplier whose output score (12)
matches the claimed formula. -/
theorem matcher_score_formula_witness :
    (⟨sC3, 12⟩ : ScoredSupplier).score
      = 10 * countCovered sC3 itemsC3
        + 2 * (if rfqDays rfqC3 = ∅ then 1 else (rfqDays rfqC3 ∩ daysOf sC3).card)
        + specBandBonus itemsC3 sC3 :=
  matcher_score_formula rfqC3 itemsC3 [sC3] ⟨sC3, 12⟩ (by decide)

/-- C4: the matcher output is ordered: any earlier entry has a strictly
higher score than a later one, or an equal score and a supplier name that is
less than or equal in the case-sensitive lexicographic (code-point) order. -/
theorem matcher_output_ordered (rfq : RFQ) (items : List LineItem) (suppliers : List Supplier) :
    (rank_suppliers_for_rfq rfq items suppliers).Pairwise ScoredRel := by
  unfold rank_suppliers_for_rfq
  refine List.Pairwise.imp ?_ (pairwise_pySort scoredLE scoredLE_trans scoredLE_total _)
  intro a b hab
  have h : scoredLE a b = true := hab
  simp only [scoredLE, Bool.or_eq_true, Bool.and_eq_true, decide_eq_true_eq, beq_iff_eq,
    charListLE_iff_le] at h
  exact h

/-- C5: a supplier none of whose parsed delivery-area codes is a
case-insensitive prefix of any parsed RFQ delivery-area code never appears in
the matcher output, whatever its other attributes. -/
theorem matcher_area_filter_excludes (rfq : RFQ) (items : List LineItem)
    (suppliers : List Supplier) (s : Supplier)
    (h : ∀ sp ∈ csvItems (s.delivery_postcodes.getD ""), ∀ rp ∈ rfqPostcodes rfq,
      strStarts (strUp rp).data (strUp sp).data = false) :
    ∀ e ∈ rank_suppliers_for_rfq rfq items suppliers, e.supplier ≠ s := by
  apply not_mem_rank_of_fails
  have hpm : postcode_matches (s.delivery_postcodes.getD "") (rfqPostcodes rfq) = false := by
    unfold postcode_matches
    by_cases he : s.delivery_postcodes.getD "" = ""
    · rw [if_pos he]
    · rw [if_neg he]
      rw [List.any_eq_false]
      intro rp hrp
      rw [Bool.not_eq_true, List.any_eq_false]
      intro sp hsp
      rcases List.mem_map.mp hsp with ⟨p, hp, rfl⟩
      rw [Bool.not_eq_true]
      exact h p hp rp hrp
  unfold passesFilters
  rw [hpm]
  simp

def rfqC5 : RFQ := { postcodes := some "BN1", welfare := none, delivery_windows := none }
def sC5 : Supplier :=
  { name := "Far Farm", welfare := none, sizes := some "L", pack_formats := some "tray",
    moq_trays := none, delivery_days := none, delivery_postcodes := some "RH,PO",
    price_band_low := none, price_band_high := none }
def itemsC5 : List LineItem := [⟨"wholesale", "L", "tray", 50, ""⟩]

/-- Witness for C5: a supplier covering only `RH`/`PO` areas is absent from
the output for a `BN1` RFQ. -/
theorem matcher_area_filter_excludes_witness :
    (⟨sC5, 12⟩ : ScoredSupplier) ∉ rank_suppliers_for_rfq rfqC5 itemsC5 [sC5] :=
  fun hm =>
    matcher_area_filter_excludes rfqC5 itemsC5 [sC5] sC5 (by decide) ⟨sC5, 12⟩ hm rfl

/-- C6: when the RFQ carries a welfare requirement, a supplier whose lowered
welfare label does not contain it as a substring never appears in the output;
when it carries none, the welfare test passes every supplier; and a label
containing the requirement passes the welfare test. -/
theorem matcher_welfare_filter (rfq : RFQ) (s : Supplier) :
    (∀ (items : List LineItem) (suppliers : List Supplier) (w : String),
        wantedWelfare rfq = some w →
        strContains (strLow (s.welfare.getD "")) w = false →
        ∀ e ∈ rank_suppliers_for_rfq rfq items suppliers, e.supplier ≠ s)
    ∧ (wantedWelfare rfq = none → welfarePasses rfq s = true)
    ∧ (∀ w : String, wantedWelfare rfq = some w →
        strContains (strLow (s.welfare.getD "")) w = true → welfarePasses rfq s = true) := by
  refine ⟨?_, ?_, ?_⟩
  · intro items suppliers w hw hc
    apply not_mem_rank_of_fails
    have hwp : welfarePasses rfq s = false := by
      unfold welfarePasses
      rw [hw]
      exact hc
    unfold passesFilters
    rw [hwp]
    simp
  · intro hn
    unfold welfarePasses
    rw [hn]
  · intro w hw hc
    unfold welfarePasses
    rw [hw]
    exact hc

def rfqC6 : RFQ := { postcodes := some "BN1", welfare := some "organic", delivery_windows := none }
def rfqC6b : RFQ := { postcodes := some "BN1", welfare := none, delivery_windows := none }
def sC6 : Supplier :=
  { name := "FR Farm", welfare := some "free-range", sizes := some "L",
    pack_formats := some "tray", moq_trays := none, delivery_days := none,
    delivery_postcodes := some "BN", price_band_low := none, price_band_high := none }
def itemsC6 : List LineItem := [⟨"wholesale", "L", "tray", 50, ""⟩]

/-- Witness for C6 at the P2 instance: welfare requirement `organic` excludes
a `free-range` supplier, and an RFQ with no requirement filters nobody on the
welfare axis. -/
theorem matcher_welfare_filter_witness :
    (⟨sC6, 12⟩ : ScoredSupplier) ∉ rank_suppliers_for_rfq rfqC6 itemsC6 [sC6]
    ∧ welfarePasses rfqC6b sC6 = true := by
  constructor
  · exact fun hm =>
      (matcher_welfare_filter rfqC6 sC6).1 itemsC6 [sC6] "organic" (by decide) (by decide)
        ⟨sC6, 12⟩ hm rfl
  · exact (matcher_welfare_filter rfqC6b sC6).2.1 (by decide)

/-- C7: the rows the comparison computation returns are sorted by ascending
`landed_per_unit`. -/
theorem normalizer_rows_sorted (items : List LineItem) (quotes : List Quote) (rows : List Row)
    (h : compareRows items quotes = some rows) : rows.Pairwise RowLed := by
  unfold compareRows at h
  cases hm : quotes.mapM (makeRow items) with
  | none => rw [hm] at h; exact Option.noConfusion h
  | some rs =>
    rw [hm] at h
    obtain rfl : pySort rowLE rs = rows := Option.some_inj.mp h
    refine List.Pairwise.imp ?_ (pairwise_pySort rowLE rowLE_trans rowLE_total rs)
    intro a b hab
    have h2 : decide (a.landed_per_unit ≤ b.landed_per_unit) = true := hab
    exact show a.landed_per_unit ≤ b.landed_per_unit from of_decide_eq_true h2

/-- C10: an RFQ whose parsed delivery-area list is empty yields an empty
matcher output for every supplier set, and a supplier whose parsed
delivery-area list is empty is excluded for every RFQ. -/
theorem matcher_empty_area_sets (rfq : RFQ) (items : List LineItem) (suppliers : List Supplier)
    (s : Supplier) :
    (rfqPostcodes rfq = [] → rank_suppliers_for_rfq rfq items suppliers = [])
    ∧ (csvItems (s.delivery_postcodes.getD "") = [] →
        ∀ e ∈ rank_suppliers_for_rfq rfq items suppliers, e.supplier ≠ s) := by
  constructor
  · intro hnil
    unfold rank_suppliers_for_rfq
    have hfm : (suppliers.filterMap fun t =>
        if passesFilters rfq items t then some (⟨t, supplierScore rfq items t⟩ : ScoredSupplier)
        else none) = [] := by
      rw [List.filterMap_eq_nil_iff]
      intro t _
      have hpm : postcode_matches (t.delivery_postcodes.getD "") (rfqPostcodes rfq) = false := by
        rw [hnil]
        unfold postcode_matches
        by_cases he : t.delivery_postcodes.getD "" = ""
        · rw [if_pos he]
        · rw [if_neg he]
          rfl
      rw [if_neg ?bool]
      case bool =>
        unfold passesFilters
        rw [hpm]
        simp
    rw [hfm]
    rfl
  · intro hcsv
    apply not_mem_rank_of_fails
    have hpm : postcode_matches (s.delivery_postcodes.getD "") (rfqPostcodes rfq) = false := by
      unfold postcode_matches
      by_cases he : s.delivery_postcodes.getD "" = ""
      · rw [if_pos he]
      · rw [if_neg he]
        simp [hcsv]
    unfold passesFilters
    rw [hpm]
    simp

def rfqC10 : RFQ := { postcodes := none, welfare := none, delivery_windows := none }
def rfqC10b : RFQ := { postcodes := some "BN1", welfare := none, delivery_windows := none }
def sC10 : Supplier :=
  { name := "Any Farm", welfare := none, sizes := some "L", pack_formats := some "tray",
    moq_trays := none, delivery_days := none, delivery_postcodes := some "BN",
    price_band_low := none, price_band_high := none }
def sC10b : Supplier :=
  { name := "Blank Farm", welfare := none, sizes := some "L", pack_formats := some "tray",
    moq_trays := none, delivery_days := none, delivery_postcodes := some " , ",
    price_band_low := none, price_band_high := none }
def itemsC10 : List LineItem := [⟨"wholesale", "L", "tray", 50, ""⟩]

/-- Witness for C10: an RFQ without area codes matches nobody, and a supplier
whose delivery-area CSV parses to nothing is excluded. -/
theorem matcher_empty_area_sets_witness :
    rank_suppliers_for_rfq rfqC10 itemsC10 [sC10] = []
    ∧ (⟨sC10b, 12⟩ : ScoredSupplier) ∉ rank_suppliers_for_rfq rfqC10b itemsC10 [sC10b] := by
  constructor
  · exact (matcher_empty_area_sets rfqC10 itemsC10 [sC10] sC10).1 (by decide)
  · exact fun hm =>
      (matcher_empty_area_sets rfqC10b itemsC10 [sC10b] sC10b).2 (by decide) ⟨sC10b, 12⟩ hm rfl


/-- C8 (amended): a quote index at least the item-list length resolves to the
zero-quantity placeholder row (quantity 0, `deliveryPerUnit` 0,
`landedPerUnit` the rounded unit price, blank label); a negative index is not
treated as invalid: below `-len(items)` the computation fails with an
`IndexError` instead of producing a row, while within `[-len, -1]` it
resolves Python-style to the item counted from the end. -/
theorem normalizer_index_fallback (items : List LineItem) (q : Quote) :
    ((items.length : Int) ≤ q.line_item_index.getD 0 →
      (makeRow items q).map Row.qty_week = some 0
      ∧ (makeRow items q).map Row.delivery_per_unit = some 0
      ∧ (makeRow items q).map Row.landed_per_unit = some (round4 (q.unit_price.getD 0))
      ∧ (makeRow items q).map Row.line_item_label = some "  ")
    ∧ (q.line_item_index.getD 0 + (items.length : Int) < 0 → makeRow items q = none)
    ∧ (q.line_item_index.getD 0 < 0 → 0 ≤ q.line_item_index.getD 0 + (items.length : Int) →
        resolveItem items (q.line_item_index.getD 0)
          = items[(q.line_item_index.getD 0 + (items.length : Int)).toNat]?) := by
  refine ⟨?_, ?_, ?_⟩
  · intro hle
    have hres : resolveItem items (q.line_item_index.getD 0) = some fallbackItem := by
      unfold resolveItem
      rw [if_neg (by omega)]
    unfold makeRow
    rw [hres]
    have hr0 : round4 0 = 0 := by
      rw [round4_int 0 0 (by norm_num)]
      norm_num
    simp [fallbackItem, hr0]
  · intro hneg
    have hres : resolveItem items (q.line_item_index.getD 0) = none := by
      unfold resolveItem pyGet
      rw [if_pos (by omega), if_neg (by omega), if_neg (by omega)]
    unfold makeRow
    rw [hres]
  · intro hlt hge
    unfold resolveItem pyGet
    rw [if_pos (by omega), if_neg (by omega), if_pos hge]

/-- C8 counterexample: quote index `-1` against an empty line-item list is
not a valid index under any reading, yet the comparison computation produces
no placeholder row for the quote — it fails outright (`IndexError` in the
source, `none` in the model). -/
theorem normalizer_invalid_index_counterexample :
    compareRows []
      [{ sname := "Marshwood Farm", line_item_index := some (-1), unit_price := some 3,
         delivery_cost := some 1, lead_time_days := none, hold_weeks := none,
         remarks := none }] = none := by
  decide

def itC8 : LineItem := ⟨"retail", "M", "box", 7, ""⟩
def qC8a : Quote :=
  { sname := "X Farm", line_item_index := some 5, unit_price := some 4,
    delivery_cost := some 2, lead_time_days := none, hold_weeks := none, remarks := none }
def qC8b : Quote :=
  { sname := "X Farm", line_item_index := some (-3), unit_price := some 4,
    delivery_cost := some 2, lead_time_days := none, hold_weeks := none, remarks := none }
def qC8c : Quote :=
  { sname := "X Farm", line_item_index := some (-1), unit_price := some 4,
    delivery_cost := some 2, lead_time_days := none, hold_weeks := none, remarks := none }

/-- Witness for the amended C8: against a one-item list, index 5 yields the
placeholder row, index −3 fails, and index −1 aliases to the last item. -/
theorem normalizer_index_fallback_witness :
    (makeRow [itC8] qC8a).map Row.qty_week = some 0
    ∧ (makeRow [itC8] qC8a).map Row.line_item_label = some "  "
    ∧ makeRow [itC8] qC8b = none
    ∧ resolveItem [itC8] (-1) = some itC8 := by
  obtain ⟨ha1, _, _, ha4⟩ := (normalizer_index_fallback [itC8] qC8a).1 (by decide)
  refine ⟨ha1, ha4, (normalizer_index_fallback [itC8] qC8b).2.1 (by decide), ?_⟩
  have h3 := (normalizer_index_fallback [itC8] qC8c).2.2 (by decide) (by decide)
  exact h3.trans (by decide)

/-- C9: the spec promises that neither core function can raise on any input,
but the comparison computation does: an RFQ with no line items plus a stored
quote with `line_item_index = -1` (insertable through the quote form) hits
`items[-1]` on an empty list, an `IndexError` (model: `none`); the
zero-quantity division guard itself is correct: quantity 0 gives
`deliveryPerUnit = 0` and `landedPerUnit = unitPrice`. -/
theorem normalizer_negative_index_error :
    compareRows []
      [{ sname := "Orchard Eggs", line_item_index := some (-1), unit_price := some 2,
         delivery_cost := some 5, lead_time_days := none, hold_weeks := none,
         remarks := none }] = none
    ∧ (makeRow [⟨"retail", "M", "box", 0, ""⟩]
        { sname := "Orchard Eggs", line_item_index := some 0, unit_price := some (5 / 2),
          delivery_cost := some 20, lead_time_days := none, hold_weeks := none,
          remarks := none }).map Row.delivery_per_unit = some 0
    ∧ (makeRow [⟨"retail", "M", "box", 0, ""⟩]
        { sname := "Orchard Eggs", line_item_index := some 0, unit_price := some (5 / 2),
          delivery_cost := some 20, lead_time_days := none, hold_weeks := none,
          remarks := none }).map Row.landed_per_unit = some (5 / 2) := by
  have hr0 : round4 0 = 0 := by
    rw [round4_int 0 0 (by norm_num)]
    norm_num
  have hr25 : round4 ((5 : ℚ) / 2) = 5 / 2 := by
    rw [round4_int _ 25000 (by norm_num)]
    norm_num
  have hres : resolveItem [(⟨"retail", "M", "box", 0, ""⟩ : LineItem)] ((some (0 : Int)).getD 0)
      = some ⟨"retail", "M", "box", 0, ""⟩ := by decide
  refine ⟨by decide, ?_, ?_⟩
  · unfold makeRow
    rw [hres]
    simp [hr0]
  · unfold makeRow
    rw [hres]
    simp [hr25]

def qW1 : Quote :=
  { sname := "A Farm", line_item_index := some 0, unit_price := some 3,
    delivery_cost := none, lead_time_days := none, hold_weeks := none, remarks := none }
def qW2 : Quote :=
  { sname := "B Farm", line_item_index := some 0, unit_price := some (14 / 5),
    delivery_cost := none, lead_time_days := none, hold_weeks := none, remarks := none }
def qW3 : Quote :=
  { sname := "C Farm", line_item_index := some 0, unit_price := some (31 / 10),
    delivery_cost := none, lead_time_days := none, hold_weeks := none, remarks := none }
def rW1 : Row :=
  { supplier := "A Farm", line_item_label := "  ", unit_price := 3, delivery_cost := 0,
    qty_week := 0, delivery_per_unit := 0, landed_per_unit := 3,
    lead_time_days := none, hold_weeks := none, remarks := none }
def rW2 : Row :=
  { supplier := "B Farm", line_item_label := "  ", unit_price := 14 / 5, delivery_cost := 0,
    qty_week := 0, delivery_per_unit := 0, landed_per_unit := 14 / 5,
    lead_time_days := none, hold_weeks := none, remarks := none }
def rW3 : Row :=
  { supplier := "C Farm", line_item_label := "  ", unit_price := 31 / 10, delivery_cost := 0,
    qty_week := 0, delivery_per_unit := 0, landed_per_unit := 31 / 10,
    lead_time_days := none, hold_weeks := none, remarks := none }

/-- Witness for C7 at the P8 instance: rows with landed costs
3.00, 2.80, 3.10 come back ordered 2.80, 3.00, 3.10. -/
theorem normalizer_rows_sorted_witness : List.Pairwise RowLed [rW2, rW1, rW3] := by
  have hr0 : round4 0 = 0 := by
    rw [round4_int 0 0 (by norm_num)]
    norm_num
  have hrA : round4 (3 : ℚ) = 3 := by
    rw [round4_int _ 30000 (by norm_num)]
    norm_num
  have hrB : round4 ((14 : ℚ) / 5) = 14 / 5 := by
    rw [round4_int _ 28000 (by norm_num)]
    norm_num
  have hrC : round4 ((31 : ℚ) / 10) = 31 / 10 := by
    rw [round4_int _ 31000 (by norm_num)]
    norm_num
  have h1 : makeRow [] qW1 = some rW1 := by
    unfold makeRow
    rw [show resolveItem [] (qW1.line_item_index.getD 0) = some fallbackItem from by decide]
    simp [fallbackItem, qW1, rW1, hr0, hrA]
  have h2 : makeRow [] qW2 = some rW2 := by
    unfold makeRow
    rw [show resolveItem [] (qW2.line_item_index.getD 0) = some fallbackItem from by decide]
    simp [fallbackItem, qW2, rW2, hr0, hrB]
  have h3 : makeRow [] qW3 = some rW3 := by
    unfold makeRow
    rw [show resolveItem [] (qW3.line_item_index.getD 0) = some fallbackItem from by decide]
    simp [fallbackItem, qW3, rW3, hr0, hrC]
  have hAB : rowLE rW1 rW2 = false := by
    unfold rowLE rW1 rW2
    rw [decide_eq_false_iff_not]
    norm_num
  have hBC : rowLE rW2 rW3 = true := by
    unfold rowLE rW2 rW3
    rw [decide_eq_true_eq]
    norm_num
  have hAC : rowLE rW1 rW3 = true := by
    unfold rowLE rW1 rW3
    rw [decide_eq_true_eq]
    norm_num
  have hcomp : compareRows [] [qW1, qW2, qW3] = some [rW2, rW1, rW3] := by
    unfold compareRows
    rw [show [qW1, qW2, qW3].mapM (makeRow []) = some [rW1, rW2, rW3] from by
      simp [List.mapM, List.mapM.loop, h1, h2, h3]]
    simp [pySort, insertLE, hAB, hBC, hAC]
  exact normalizer_rows_sorted [] [qW1, qW2, qW3] [rW2, rW1, rW3] hcomp

end Eggschange
